import Mathlib

/-!
Verification development for the asynchronous sampling core of the
power-overwhelming library.

The embedding below follows the C++ sources:

* `src/power_overwhelming/src/async_sampling.cpp` together with
  `src/power_overwhelming/include/power_overwhelming/async_sampling.h`
  (the sampling configuration `async_sampling`),
* `src/power_overwhelming/src/rtx_instrument_configuration.cpp`
  (configuration-file matching),
* `src/power_overwhelming/src/rtx_sensor_definition.cpp`
  (constructor validation),
* `src/power_overwhelming/adl_sensor_source.cpp` (bitmask `to_string`),
* `src/power_overwhelming/include/power_overwhelming/collector.h`
  (collector handle and move semantics).

Pointers are modelled as natural numbers (`0` plays the role of
`nullptr` for the context pointer); function pointers are modelled as
`Option Nat`, with `none` for `nullptr`.  Where the defining translation
unit of a declared member is not part of the sources (the context-deleter
machinery of `async_sampling` and `collector::stop`), the definition is
modelled from the specification and marked as such in its doc comment.
-/

/-- The `timestamp_resolution` enumeration used by the sampling
configuration; `milliseconds` is the default used by the constructor. -/
inductive TimestampResolution where
  | hundredNanoseconds
  | microseconds
  | milliseconds
  | nanoseconds
  | seconds
  deriving DecidableEq, Repr

/-- The `tinkerforge_sensor_source` bitmask selector; `all` is the
default used by the constructor. -/
inductive TinkerforgeSensorSource where
  | current
  | voltage
  | power
  | all
  deriving DecidableEq, Repr

/-- State of one `async_sampling` configuration.  Fields mirror the
private members of the class: `_context`, `_context_deleter`,
`_interval`, `_minimum_sleep`, `_on_measurement`,
`_on_measurement_data`, `_timestamp_resolution`,
`_tinkerforge_sensor_source`. -/
structure AsyncSampling where
  context : Nat
  contextDeleter : Option Nat
  interval : Nat
  minimumSleep : Nat
  onMeasurement : Option Nat
  onMeasurementData : Option Nat
  timestampResolution : TimestampResolution
  tinkerforgeSource : TinkerforgeSensorSource
  deriving DecidableEq, Repr

/-- `async_sampling::default_interval`, 5000 microseconds
(`async_sampling.h`, line 76). -/
def default_interval : Nat := 5000

/-- The default constructor `async_sampling::async_sampling`: null
context, default interval, no callbacks, millisecond resolution, all
Tinkerforge sources.  The deleter starts as `nullptr` (the move
constructor in the header starts from `_context_deleter(nullptr)`) and
the minimum sleep as zero. -/
def defaultAsyncSampling : AsyncSampling where
  context := 0
  contextDeleter := none
  interval := default_interval
  minimumSleep := 0
  onMeasurement := none
  onMeasurementData := none
  timestampResolution := TimestampResolution.milliseconds
  tinkerforgeSource := TinkerforgeSensorSource.all

/-- `async_sampling::produces_measurement`: stores the legacy
measurement callback and clears the measurement-data callback. -/
def producesMeasurement (callback : Option Nat) (s : AsyncSampling) :
    AsyncSampling :=
  { s with onMeasurement := callback, onMeasurementData := none }

/-- `async_sampling::produces_measurement_data`: stores the raw
measurement-data callback and clears the legacy callback. -/
def producesMeasurementData (callback : Option Nat) (s : AsyncSampling) :
    AsyncSampling :=
  { s with onMeasurementData := callback, onMeasurement := none }

/-- `async_sampling::is_disabled`: clears both callbacks. -/
def isDisabledOp (s : AsyncSampling) : AsyncSampling :=
  { s with onMeasurement := none, onMeasurementData := none }

/-- `async_sampling::samples_every`: stores the sampling interval. -/
def samplesEvery (interval : Nat) (s : AsyncSampling) : AsyncSampling :=
  { s with interval := interval }

/-- `async_sampling::from_source`: stores the Tinkerforge source mask. -/
def fromSource (source : TinkerforgeSensorSource) (s : AsyncSampling) :
    AsyncSampling :=
  { s with tinkerforgeSource := source }

/-- `async_sampling::using_resolution`: stores the timestamp
resolution. -/
def usingResolution (resolution : TimestampResolution) (s : AsyncSampling) :
    AsyncSampling :=
  { s with timestampResolution := resolution }

/-- A call to one of the two callback setters. -/
inductive SetterCall where
  | measurement (callback : Option Nat)
  | measurementData (callback : Option Nat)
  deriving DecidableEq, Repr

/-- Apply one callback-setter call. -/
def applySetter (s : AsyncSampling) : SetterCall → AsyncSampling
  | SetterCall.measurement callback => producesMeasurement callback s
  | SetterCall.measurementData callback => producesMeasurementData callback s

/-- Apply a sequence of callback-setter calls, first call first. -/
def applySetters (s : AsyncSampling) (calls : List SetterCall) :
    AsyncSampling :=
  calls.foldl applySetter s

/-- At most one of the two callbacks is active. -/
def atMostOneCallback (s : AsyncSampling) : Prop :=
  s.onMeasurement = none ∨ s.onMeasurementData = none

instance (s : AsyncSampling) : Decidable (atMostOneCallback s) := by
  unfold atMostOneCallback
  infer_instance

/-- The delivery path taken by `async_sampling::deliver` for an
invoked callback. -/
inductive DeliveryPath where
  | measurementData
  | measurement
  deriving DecidableEq, Repr

/-- `async_sampling::deliver`: invokes the measurement-data callback if
set, then the legacy measurement callback if set, and reports whether
any callback fired.  The returned list records the invoked delivery
paths in order. -/
def deliver (s : AsyncSampling) : Bool × List DeliveryPath :=
  let dataCalls := if s.onMeasurementData.isSome
    then [DeliveryPath.measurementData] else []
  let measurementCalls := if s.onMeasurement.isSome
    then [DeliveryPath.measurement] else []
  let calls := dataCalls ++ measurementCalls
  (!calls.isEmpty, calls)

/-- A deleter invocation: the deleter (first component) was called on
the context pointer (second component). -/
abbrev DeleterEvent : Type := Nat × Nat

/-- Modelled from the spec: releasing an owned context.  The
context-deleter machinery is only declared in `async_sampling.h`
(`stores_and_passes_context`, the destructor); its translation unit is
not part of the sources.  Per the spec, if a deleter is registered the
configuration owns the context and the deleter runs when the context is
released.  An unset (`none`) deleter releases nothing. -/
def releaseEvents (s : AsyncSampling) : List DeleterEvent :=
  match s.contextDeleter with
  | some d => [(d, s.context)]
  | none => []

/-- An operation on a collection of sampling configurations, identified
by slot index.  `moveAssign i j` is `configs[i] = std::move(configs[j])`;
`destroy i` is the destructor. -/
inductive SamplingOp where
  | producesMeasurement (i : Nat) (callback : Option Nat)
  | producesMeasurementData (i : Nat) (callback : Option Nat)
  | isDisabled (i : Nat)
  | samplesEvery (i : Nat) (interval : Nat)
  | fromSource (i : Nat) (source : TinkerforgeSensorSource)
  | usingResolution (i : Nat) (resolution : TimestampResolution)
  | passesContext (i : Nat) (context : Nat)
  | storesAndPassesContext (i : Nat) (context : Nat) (deleter : Option Nat)
  | moveAssign (i : Nat) (j : Nat)
  | destroy (i : Nat)
  deriving DecidableEq, Repr

/-- A world of sampling-configuration slots; `none` marks a destroyed
slot. -/
abbrev SamplingWorld : Type := List (Option AsyncSampling)

/-- A world of `n` default-constructed configurations. -/
def initialWorld (n : Nat) : SamplingWorld :=
  List.replicate n (some defaultAsyncSampling)

/-- Run a pure update on a live slot; operations on destroyed or
out-of-range slots have no effect. -/
def mutateSlot (w : SamplingWorld) (i : Nat)
    (f : AsyncSampling → AsyncSampling × List DeleterEvent) :
    SamplingWorld × List DeleterEvent :=
  match w.get? i with
  | some (some s) => ((w.set i (some (f s).1)), (f s).2)
  | _ => (w, [])

/-- One step of the operation semantics.

Setter operations follow `async_sampling.cpp` directly.  The
context-attaching operations and the destructor are modelled from the
spec (their translation unit is missing from the sources): attaching a
context releases any previously owned context first, and destruction
releases the owned context.  Move assignment follows
`async_sampling::operator =`: a guarded no-op on self-assignment;
otherwise the left-hand side releases its owned context (spec-modelled
half), adopts every field of the right-hand side, and the right-hand
side is reset to the default state. -/
def stepOp (w : SamplingWorld) : SamplingOp →
    SamplingWorld × List DeleterEvent
  | SamplingOp.producesMeasurement i callback =>
      mutateSlot w i (fun s => (producesMeasurement callback s, []))
  | SamplingOp.producesMeasurementData i callback =>
      mutateSlot w i (fun s => (producesMeasurementData callback s, []))
  | SamplingOp.isDisabled i =>
      mutateSlot w i (fun s => (isDisabledOp s, []))
  | SamplingOp.samplesEvery i interval =>
      mutateSlot w i (fun s => (samplesEvery interval s, []))
  | SamplingOp.fromSource i source =>
      mutateSlot w i (fun s => (fromSource source s, []))
  | SamplingOp.usingResolution i resolution =>
      mutateSlot w i (fun s => (usingResolution resolution s, []))
  | SamplingOp.passesContext i context =>
      mutateSlot w i (fun s =>
        ({ s with context := context, contextDeleter := none },
         releaseEvents s))
  | SamplingOp.storesAndPassesContext i context deleter =>
      mutateSlot w i (fun s =>
        ({ s with context := context, contextDeleter := deleter },
         releaseEvents s))
  | SamplingOp.moveAssign i j =>
      if i = j then (w, [])
      else
        match w.get? i, w.get? j with
        | some (some si), some (some sj) =>
            ((w.set i (some sj)).set j (some defaultAsyncSampling),
             releaseEvents si)
        | _, _ => (w, [])
  | SamplingOp.destroy i =>
      match w.get? i with
      | some (some s) => (w.set i none, releaseEvents s)
      | _ => (w, [])

/-- Run a sequence of operations, accumulating deleter events. -/
def runOps (w : SamplingWorld) : List SamplingOp →
    SamplingWorld × List DeleterEvent
  | [] => (w, [])
  | op :: ops =>
      ((runOps (stepOp w op).1 ops).1,
       (stepOp w op).2 ++ (runOps (stepOp w op).1 ops).2)

/-- Whether a slot currently owns context `c` (context equals `c` and a
deleter is registered). -/
def ownsCtx (c : Nat) : Option AsyncSampling → Bool
  | some s => s.context == c && s.contextDeleter.isSome
  | none => false

/-- Number of slots owning context `c`. -/
def ownsCount (w : SamplingWorld) (c : Nat) : Nat :=
  w.countP (ownsCtx c)

/-- Number of deleter invocations on context `c` in an event list. -/
def eventsOn (c : Nat) (events : List DeleterEvent) : Nat :=
  events.countP (fun e => e.2 == c)

/-- Whether an operation attaches context `c` with a deleter. -/
def attachesCtx (c : Nat) : SamplingOp → Bool
  | SamplingOp.storesAndPassesContext _ context deleter =>
      context == c && deleter.isSome
  | _ => false

/-! ### Configuration-file matching (`rtx_instrument_configuration.cpp`) -/

/-- One JSON entry of a configuration file: either a bare configuration
object, or a compound object carrying `name` and `path` fields next to
the configuration (`parse_rtx_instument_conf`).  A configuration is
identified by a numeric id standing for the deserialised object. -/
inductive RtxConfEntry where
  | plain (config : Nat)
  | compound (config : Nat) (name : String) (path : String)
  deriving DecidableEq, Repr

/-- The configuration id carried by an entry. -/
def RtxConfEntry.config : RtxConfEntry → Nat
  | RtxConfEntry.plain config => config
  | RtxConfEntry.compound config _ _ => config

/-- Accumulator state of `parse_rtx_instument_conf`: the configuration
list and the two lookup maps (`by_path`, `by_name` from matching key to
index into the configuration list).  The maps are association lists in
which the most recent insertion is found first, matching the
overwriting `std::map` assignment `map[key] = idx`. -/
structure RtxParseState where
  configs : List Nat
  byPath : List (String × Nat)
  byName : List (String × Nat)
  deriving DecidableEq, Repr

/-- Lookup in one of the maps (`std::map::find`). -/
def mapFind (m : List (String × Nat)) (key : String) : Option Nat :=
  (m.find? (fun p => p.1 == key)).map (fun p => p.2)

/-- `parse_rtx_instument_conf` for one entry: append the configuration
and, for compound entries, register non-empty name and path keys. -/
def parseConfEntry (st : RtxParseState) : RtxConfEntry → RtxParseState
  | RtxConfEntry.plain config =>
      { st with configs := st.configs ++ [config] }
  | RtxConfEntry.compound config name path =>
      let idx := st.configs.length
      { configs := st.configs ++ [config]
        byPath := if path = "" then st.byPath else (path, idx) :: st.byPath
        byName := if name = "" then st.byName else (name, idx) :: st.byName }

/-- Parse a whole configuration file (the array case; a single object is
the one-element list). -/
def parseConfFile (entries : List RtxConfEntry) : RtxParseState :=
  entries.foldl parseConfEntry ⟨[], [], []⟩

/-- The per-instrument selection loop of
`rtx_instrument_configuration::apply(instruments, cnt, path)`: look the
instrument's connection path up in `by_path` first, then its name in
`by_name`, and otherwise fall back to the first configuration together
with a diagnostic message.  Returns the index of the applied
configuration and whether the diagnostic was emitted. -/
def selectConfiguration (entries : List RtxConfEntry)
    (instPath instName : String) : Nat × Bool :=
  let st := parseConfFile entries
  match mapFind st.byPath instPath with
  | some idx => (idx, false)
  | none =>
      match mapFind st.byName instName with
      | some idx => (idx, false)
      | none => (0, true)

/-- The selection rule as the claim words it (name has priority over the
connection path); stated only to compare it against
`selectConfiguration`. -/
def selectConfigurationClaimed (entries : List RtxConfEntry)
    (instPath instName : String) : Nat × Bool :=
  let st := parseConfFile entries
  match mapFind st.byName instName with
  | some idx => (idx, false)
  | none =>
      match mapFind st.byPath instPath with
      | some idx => (idx, false)
      | none => (0, true)

/-- Whether an entry registers connection path `p` (a compound entry
with that non-empty path). -/
def entryHasPath (p : String) : RtxConfEntry → Bool
  | RtxConfEntry.plain _ => false
  | RtxConfEntry.compound _ _ path => path == p && !(path == "")

/-- Whether an entry registers logical name `n` (a compound entry with
that non-empty name). -/
def entryHasName (n : String) : RtxConfEntry → Bool
  | RtxConfEntry.plain _ => false
  | RtxConfEntry.compound _ name _ => name == n && !(name == "")

/-- Index of the last entry satisfying `p`, if any. -/
def lastIdxWhere (p : RtxConfEntry → Bool) : List RtxConfEntry → Option Nat
  | [] => none
  | e :: es =>
      match lastIdxWhere p es with
      | some k => some (k + 1)
      | none => if p e then some 0 else none

/-- Reference description of the selection applied by the code: the last
entry registering the instrument's path wins; otherwise the last entry
registering its name; otherwise the first configuration with a
diagnostic. -/
def selectByLastMatch (entries : List RtxConfEntry)
    (instPath instName : String) : Nat × Bool :=
  match lastIdxWhere (entryHasPath instPath) entries with
  | some k => (k, false)
  | none =>
      match lastIdxWhere (entryHasName instName) entries with
      | some k => (k, false)
      | none => (0, true)

/-! ### Oscilloscope sensor definitions (`rtx_sensor_definition.cpp`) -/

/-- Library error values surfaced to callers. -/
inductive PwrError where
  | invalidArgument (message : String)
  deriving DecidableEq, Repr

/-- Error text for an empty description (`rtx_sensor_definition.cpp`,
`error_description`). -/
def error_description : String :=
  "The description of an oscilloscope-based sensor must not be empty."

/-- Error text for coinciding channels (`rtx_sensor_definition.cpp`,
`error_same_channel`). -/
def error_same_channel : String :=
  "The channel measuring voltage cannot be the same as the one measuring current."

/-- An oscilloscope sensor definition, reduced to the fields the
validation logic inspects: the description and the two channel
numbers. -/
structure RtxSensorDefinition where
  description : String
  channelVoltage : Nat
  channelCurrent : Nat
  deriving DecidableEq, Repr

/-- The validating constructor `rtx_sensor_definition`: a `none`
description models a `nullptr` pointer (which `detail::safe_assign`
turns into an empty blob).  It throws `std::invalid_argument` when the
description is null or empty, then when the current channel equals the
voltage channel, and otherwise succeeds. -/
def mkRtxSensorDefinition (description : Option String)
    (channelVoltage channelCurrent : Nat) :
    Except PwrError RtxSensorDefinition :=
  let desc := match description with
    | none => ""
    | some s => s
  if desc = "" then
    Except.error (PwrError.invalidArgument error_description)
  else if channelCurrent = channelVoltage then
    Except.error (PwrError.invalidArgument error_same_channel)
  else
    Except.ok ⟨desc, channelVoltage, channelCurrent⟩

/-! ### ADL sensor sources (`adl_sensor_source.cpp`) -/

/-- Modelled from the spec: the `adl_sensor_source` enumerator values.
The defining header is not part of the sources; per the spec the type is
a bitmask enumeration with set-algebra semantics, so the four proper
sources are distinct bits and `all` is their union. -/
def adlAsic : Nat := 1

/-- Modelled from the spec: the `cpu` bit of `adl_sensor_source`. -/
def adlCpu : Nat := 2

/-- Modelled from the spec: the `graphics` bit of `adl_sensor_source`. -/
def adlGraphics : Nat := 4

/-- Modelled from the spec: the `soc` bit of `adl_sensor_source`. -/
def adlSoc : Nat := 8

/-- Modelled from the spec: `all`, the union of every source bit. -/
def adlAll : Nat := 15

/-- `operator |` on `adl_sensor_source`: bitwise or of the underlying
values. -/
def adlOr (lhs rhs : Nat) : Nat :=
  Nat.lor lhs rhs

/-- `operator &` on `adl_sensor_source`: bitwise and of the underlying
values. -/
def adlAnd (lhs rhs : Nat) : Nat :=
  Nat.land lhs rhs

/-- `to_string(adl_sensor_source)`: returns the enumerator name for the
five named values and throws `std::invalid_argument` for every other
value. -/
def adlToString (source : Nat) : Except PwrError String :=
  if source = adlAsic then Except.ok "asic"
  else if source = adlCpu then Except.ok "cpu"
  else if source = adlGraphics then Except.ok "graphics"
  else if source = adlSoc then Except.ok "soc"
  else if source = adlAll then Except.ok "all"
  else Except.error (PwrError.invalidArgument
    "The specified sensor source is unknown.")

/-! ### Collector (`collector.h`) -/

/-- The state behind a live `detail::collector_impl`. -/
structure CollectorImpl where
  running : Bool
  sensorCount : Nat
  deriving DecidableEq, Repr

/-- The `collector` handle: `_impl` is `none` for a default-constructed
or moved-from (disposed) instance. -/
structure Collector where
  impl : Option CollectorImpl
  deriving DecidableEq, Repr

/-- The default constructor `collector::collector()`: `_impl(nullptr)`. -/
def defaultCollector : Collector := ⟨none⟩

/-- The move constructor (`collector.h`, lines 140-142): the new
instance takes the implementation and the source is left disposed.
Returns (new instance, moved-from source). -/
def collectorMove (rhs : Collector) : Collector × Collector :=
  (⟨rhs.impl⟩, ⟨none⟩)

/-- Modelled from the spec: `collector::stop` — its translation unit is
not part of the sources, only the declaration with the remark that it is
safe on disposed instances.  Per the spec it signals every scheduler to
terminate and joins them, is a no-op on a disposed, never-started or
already-stopped collector, and never throws (modelled by always
returning `Except.ok`). -/
def collectorStop (c : Collector) : Except PwrError Collector :=
  Except.ok (match c.impl with
    | none => c
    | some impl => ⟨some { impl with running := false }⟩)

/-- A sample configuration owning context 7 with deleter 3, used as a
concrete test value. -/
def ownerSample : AsyncSampling :=
  { defaultAsyncSampling with context := 7, contextDeleter := some 3 }

/-- A sample configuration with a custom interval and legacy callback,
used as a concrete test value. -/
def otherSample : AsyncSampling :=
  { defaultAsyncSampling with interval := 42, onMeasurement := some 9 }

/-- A two-slot world holding the two sample configurations. -/
def witnessWorld : SamplingWorld := [some ownerSample, some otherSample]

/-! ### Helper lemmas -/

theorem listGetSetNe {α : Type} (v : α) :
    ∀ (l : List α) (i j : Nat), i ≠ j → (l.set i v).get? j = l.get? j := by
  intro l
  induction l with
  | nil => intro i j _; simp
  | cons x xs ih =>
      intro i j h
      cases i with
      | zero =>
          cases j with
          | zero => exact absurd rfl h
          | succ j => simp [List.set]
      | succ i =>
          cases j with
          | zero => simp [List.set]
          | succ j =>
              simpa [List.set] using ih i j (fun hc => h (by rw [hc]))

theorem listGetSetSelf {α : Type} (v : α) :
    ∀ (l : List α) (i : Nat), i < l.length → (l.set i v).get? i = some v := by
  intro l
  induction l with
  | nil => intro i h; simp at h
  | cons x xs ih =>
      intro i h
      cases i with
      | zero => simp [List.set]
      | succ i =>
          simp only [List.set, List.get?]
          exact ih i (by simpa using h)

theorem countPSetAux {α : Type} (p : α → Bool) (v : α) :
    ∀ (l : List α) (i : Nat) (a : α), l.get? i = some a →
      (l.set i v).countP p + (if p a then 1 else 0) =
        l.countP p + (if p v then 1 else 0) := by
  intro l
  induction l with
  | nil => intro i a h; simp at h
  | cons x xs ih =>
      intro i a h
      cases i with
      | zero =>
          simp only [List.get?] at h
          cases h
          simp only [List.set, List.countP_cons]
          omega
      | succ i =>
          simp only [List.get?] at h
          have := ih i a h
          simp only [List.set, List.countP_cons]
          omega

theorem eventsOnAppend (c : Nat) (e1 e2 : List DeleterEvent) :
    eventsOn c (e1 ++ e2) = eventsOn c e1 + eventsOn c e2 := by
  simp [eventsOn, List.countP_append]

theorem eventsOnNil (c : Nat) : eventsOn c [] = 0 := rfl

theorem eventsOnRelease (c : Nat) (s : AsyncSampling) :
    eventsOn c (releaseEvents s) = if ownsCtx c (some s) then 1 else 0 := by
  cases h : s.contextDeleter with
  | none => simp [releaseEvents, h, eventsOn, ownsCtx]
  | some d =>
      cases hc : s.context == c with
      | false => simp [releaseEvents, h, eventsOn, ownsCtx, hc, List.countP_cons]
      | true => simp [releaseEvents, h, eventsOn, ownsCtx, hc, List.countP_cons]

theorem ownsCountInitial (n c : Nat) : ownsCount (initialWorld n) c = 0 := by
  induction n with
  | zero => rfl
  | succ m ih =>
      simp only [initialWorld, List.replicate, ownsCount, List.countP_cons] at *
      simp [ownsCtx, defaultAsyncSampling, ih]

theorem ownsCountAllNone (w : SamplingWorld) (c : Nat)
    (h : ∀ slot ∈ w, slot = none) : ownsCount w c = 0 := by
  unfold ownsCount
  rw [List.countP_eq_zero]
  intro a ha
  rw [h a ha]
  simp [ownsCtx]

theorem ownsCountZeroSlot (w : SamplingWorld) (c i : Nat) (s : AsyncSampling)
    (h0 : ownsCount w c = 0) (hi : w.get? i = some (some s)) :
    ownsCtx c (some s) = false := by
  unfold ownsCount at h0
  rw [List.countP_eq_zero] at h0
  have hmem : some s ∈ w := List.get?_mem hi
  simpa using h0 (some s) hmem

theorem mutateSlotPreserves (c : Nat) (w : SamplingWorld) (i : Nat)
    (f : AsyncSampling → AsyncSampling × List DeleterEvent)
    (hf : ∀ s : AsyncSampling,
      (if ownsCtx c (some (f s).1) then 1 else 0) + eventsOn c (f s).2 =
        if ownsCtx c (some s) then 1 else 0) :
    ownsCount (mutateSlot w i f).1 c + eventsOn c (mutateSlot w i f).2 =
      ownsCount w c := by
  unfold mutateSlot
  cases hw : w.get? i with
  | none => simp [eventsOnNil]
  | some slot =>
      cases slot with
      | none => simp [eventsOnNil]
      | some s =>
          simp only
          have hset := countPSetAux (ownsCtx c) (some ((f s).1)) w i (some s) hw
          have hfs := hf s
          unfold ownsCount at *
          omega

theorem stepOpPreserves (c : Nat) (w : SamplingWorld) (op : SamplingOp)
    (h : attachesCtx c op = false) :
    ownsCount (stepOp w op).1 c + eventsOn c (stepOp w op).2 =
      ownsCount w c := by
  cases op with
  | producesMeasurement i callback =>
      exact mutateSlotPreserves c w i _ (fun s => by
        simp [producesMeasurement, ownsCtx, eventsOnNil])
  | producesMeasurementData i callback =>
      exact mutateSlotPreserves c w i _ (fun s => by
        simp [producesMeasurementData, ownsCtx, eventsOnNil])
  | isDisabled i =>
      exact mutateSlotPreserves c w i _ (fun s => by
        simp [isDisabledOp, ownsCtx, eventsOnNil])
  | samplesEvery i interval =>
      exact mutateSlotPreserves c w i _ (fun s => by
        simp [samplesEvery, ownsCtx, eventsOnNil])
  | fromSource i source =>
      exact mutateSlotPreserves c w i _ (fun s => by
        simp [fromSource, ownsCtx, eventsOnNil])
  | usingResolution i resolution =>
      exact mutateSlotPreserves c w i _ (fun s => by
        simp [usingResolution, ownsCtx, eventsOnNil])
  | passesContext i context =>
      exact mutateSlotPreserves c w i _ (fun s => by
        rw [eventsOnRelease]
        simp [ownsCtx])
  | storesAndPassesContext i context deleter =>
      refine mutateSlotPreserves c w i _ (fun s => ?_)
      rw [eventsOnRelease]
      have hnew : ownsCtx c (some { s with
          context := context, contextDeleter := deleter }) = false := by
        simpa [attachesCtx, ownsCtx] using h
      rw [hnew]
      simp
  | destroy i =>
      cases hw : w.get? i with
      | none =>
          have hstep : stepOp w (SamplingOp.destroy i) = (w, []) := by
            simp only [stepOp]
            rw [hw]
          rw [hstep]
          simp [eventsOnNil]
      | some slot =>
          cases slot with
          | none =>
              have hstep : stepOp w (SamplingOp.destroy i) = (w, []) := by
                simp only [stepOp]
                rw [hw]
              rw [hstep]
              simp [eventsOnNil]
          | some s =>
              have hstep : stepOp w (SamplingOp.destroy i) =
                  (w.set i none, releaseEvents s) := by
                simp only [stepOp]
                rw [hw]
              rw [hstep]
              show ownsCount (w.set i none) c +
                eventsOn c (releaseEvents s) = ownsCount w c
              have hset := countPSetAux (ownsCtx c) none w i (some s) hw
              have hnone : (if ownsCtx c (none : Option AsyncSampling)
                  then 1 else 0) = 0 := rfl
              rw [hnone] at hset
              rw [eventsOnRelease c s]
              unfold ownsCount
              omega
  | moveAssign i j =>
      by_cases hij : i = j
      · have hstep : stepOp w (SamplingOp.moveAssign i j) = (w, []) := by
          simp only [stepOp]
          rw [if_pos hij]
        rw [hstep]
        simp [eventsOnNil]
      · cases hw1 : w.get? i with
        | none =>
            have hstep : stepOp w (SamplingOp.moveAssign i j) = (w, []) := by
              simp only [stepOp]
              rw [if_neg hij, hw1]
            rw [hstep]
            simp [eventsOnNil]
        | some slot1 =>
            cases hw2 : w.get? j with
            | none =>
                have hstep : stepOp w (SamplingOp.moveAssign i j) =
                    (w, []) := by
                  simp only [stepOp]
                  rw [if_neg hij, hw1, hw2]
                  cases slot1 <;> rfl
                rw [hstep]
                simp [eventsOnNil]
            | some slot2 =>
                cases slot1 with
                | none =>
                    have hstep : stepOp w (SamplingOp.moveAssign i j) =
                        (w, []) := by
                      simp only [stepOp]
                      rw [if_neg hij, hw1, hw2]
                    rw [hstep]
                    simp [eventsOnNil]
                | some si =>
                    cases slot2 with
                    | none =>
                        have hstep : stepOp w (SamplingOp.moveAssign i j) =
                            (w, []) := by
                          simp only [stepOp]
                          rw [if_neg hij, hw1, hw2]
                        rw [hstep]
                        simp [eventsOnNil]
                    | some sj =>
                        have hstep : stepOp w (SamplingOp.moveAssign i j) =
                            ((w.set i (some sj)).set j
                              (some defaultAsyncSampling),
                             releaseEvents si) := by
                          simp only [stepOp]
                          rw [if_neg hij, hw1, hw2]
                        rw [hstep]
                        show ownsCount
                            ((w.set i (some sj)).set j
                              (some defaultAsyncSampling)) c +
                          eventsOn c (releaseEvents si) = ownsCount w c
                        have hset1 := countPSetAux (ownsCtx c) (some sj) w i
                          (some si) hw1
                        have hget : (w.set i (some sj)).get? j =
                            some (some sj) := by
                          rw [listGetSetNe _ _ i j hij, hw2]
                        have hset2 := countPSetAux (ownsCtx c)
                          (some defaultAsyncSampling) (w.set i (some sj)) j
                          (some sj) hget
                        have hdef : (if ownsCtx c (some defaultAsyncSampling)
                            then 1 else 0) = 0 := by
                          simp [ownsCtx, defaultAsyncSampling]
                        rw [hdef] at hset2
                        rw [eventsOnRelease c si]
                        unfold ownsCount
                        omega

theorem runOpsAppend (w : SamplingWorld) (as bs : List SamplingOp) :
    runOps w (as ++ bs) =
      ((runOps (runOps w as).1 bs).1,
       (runOps w as).2 ++ (runOps (runOps w as).1 bs).2) := by
  induction as generalizing w with
  | nil => rfl
  | cons op ops ih =>
      show ((runOps (stepOp w op).1 (ops ++ bs)).1,
        (stepOp w op).2 ++ (runOps (stepOp w op).1 (ops ++ bs)).2) = _
      rw [ih (stepOp w op).1]
      show _ = ((runOps (runOps (stepOp w op).1 ops).1 bs).1,
        ((stepOp w op).2 ++ (runOps (stepOp w op).1 ops).2) ++
          (runOps (runOps (stepOp w op).1 ops).1 bs).2)
      rw [List.append_assoc]

theorem runOpsPreserves (c : Nat) :
    ∀ (ops : List SamplingOp) (w : SamplingWorld),
      (∀ op ∈ ops, attachesCtx c op = false) →
      ownsCount (runOps w ops).1 c + eventsOn c (runOps w ops).2 =
        ownsCount w c := by
  intro ops
  induction ops with
  | nil => intro w _; simp [runOps, eventsOnNil]
  | cons op ops ih =>
      intro w h
      have h1 := stepOpPreserves c w op (h op (List.mem_cons_self op ops))
      have h2 := ih (stepOp w op).1
        (fun o ho => h o (List.mem_cons_of_mem op ho))
      simp only [runOps, eventsOnAppend]
      omega

theorem stepOpAttach (c d : Nat) (w : SamplingWorld) (i : Nat)
    (s : AsyncSampling) (hw : w.get? i = some (some s))
    (h0 : ownsCount w c = 0) :
    ownsCount
        (stepOp w (SamplingOp.storesAndPassesContext i c (some d))).1 c = 1 ∧
    eventsOn c
        (stepOp w (SamplingOp.storesAndPassesContext i c (some d))).2 = 0 := by
  have hfalse : ownsCtx c (some s) = false := ownsCountZeroSlot w c i s h0 hw
  have hstep : stepOp w (SamplingOp.storesAndPassesContext i c (some d)) =
      (w.set i (some { s with context := c, contextDeleter := some d }),
       releaseEvents s) := by
    simp only [stepOp, mutateSlot]
    rw [hw]
  rw [hstep]
  constructor
  · show ownsCount (w.set i
      (some { s with context := c, contextDeleter := some d })) c = 1
    have hset := countPSetAux (ownsCtx c)
      (some { s with context := c, contextDeleter := some d }) w i (some s) hw
    have h1 : (if ownsCtx c (some { s with
        context := c, contextDeleter := some d }) then 1 else 0) = 1 := by
      simp [ownsCtx]
    have h2 : (if ownsCtx c (some s) then 1 else 0) = 0 := by
      rw [hfalse]
      rfl
    rw [h1, h2] at hset
    unfold ownsCount at h0 ⊢
    omega
  · show eventsOn c (releaseEvents s) = 0
    rw [eventsOnRelease, hfalse]
    rfl

theorem listGetLtLength {α : Type} (l : List α) (i : Nat) (a : α)
    (h : l.get? i = some a) : i < l.length := by
  by_contra hlt
  rw [List.get?_eq_none.mpr (by omega)] at h
  exact Option.noConfusion h

theorem lastIdxWhereAppend (p : RtxConfEntry → Bool) :
    ∀ (es : List RtxConfEntry) (e : RtxConfEntry),
      lastIdxWhere p (es ++ [e]) =
        if p e then some es.length else lastIdxWhere p es := by
  intro es
  induction es with
  | nil =>
      intro e
      cases hpe : p e <;> simp [lastIdxWhere, hpe]
  | cons x xs ih =>
      intro e
      show (match lastIdxWhere p (xs ++ [e]) with
        | some k => some (k + 1)
        | none => if p x then some 0 else none) = _
      rw [ih e]
      by_cases hpe : p e
      · simp [hpe]
      · simp only [if_neg hpe]
        rfl

theorem parseEntryPathStep (st : RtxParseState) (e : RtxConfEntry)
    (done : List RtxConfEntry)
    (hlen : st.configs.length = done.length)
    (h : ∀ q, mapFind st.byPath q = lastIdxWhere (entryHasPath q) done) :
    ∀ q, mapFind (parseConfEntry st e).byPath q =
      lastIdxWhere (entryHasPath q) (done ++ [e]) := by
  intro q
  rw [lastIdxWhereAppend]
  cases e with
  | plain cfg =>
      simp [parseConfEntry, entryHasPath, h q]
  | compound cfg name path =>
      simp only [parseConfEntry]
      by_cases hp : path = ""
      · rw [if_pos hp]
        have hfalse : entryHasPath q (RtxConfEntry.compound cfg name path)
            = false := by
          simp [entryHasPath, hp]
        rw [hfalse]
        simp [h q]
      · rw [if_neg hp]
        by_cases hq : path = q
        · subst hq
          have htrue : entryHasPath path
              (RtxConfEntry.compound cfg name path) = true := by
            simp [entryHasPath, hp]
          rw [htrue]
          simp [mapFind, List.find?, hlen]
        · have hfalse : entryHasPath q
              (RtxConfEntry.compound cfg name path) = false := by
            simp [entryHasPath, hq]
          rw [hfalse]
          rw [if_neg Bool.false_ne_true]
          rw [← h q]
          have hbeq : (path == q) = false := by
            simp [hq]
          simp [mapFind, List.find?, hbeq]

theorem parseEntryNameStep (st : RtxParseState) (e : RtxConfEntry)
    (done : List RtxConfEntry)
    (hlen : st.configs.length = done.length)
    (h : ∀ q, mapFind st.byName q = lastIdxWhere (entryHasName q) done) :
    ∀ q, mapFind (parseConfEntry st e).byName q =
      lastIdxWhere (entryHasName q) (done ++ [e]) := by
  intro q
  rw [lastIdxWhereAppend]
  cases e with
  | plain cfg =>
      simp [parseConfEntry, entryHasName, h q]
  | compound cfg name path =>
      simp only [parseConfEntry]
      by_cases hn : name = ""
      · rw [if_pos hn]
        have hfalse : entryHasName q (RtxConfEntry.compound cfg name path)
            = false := by
          simp [entryHasName, hn]
        rw [hfalse]
        simp [h q]
      · rw [if_neg hn]
        by_cases hq : name = q
        · subst hq
          have htrue : entryHasName name
              (RtxConfEntry.compound cfg name path) = true := by
            simp [entryHasName, hn]
          rw [htrue]
          simp [mapFind, List.find?, hlen]
        · have hfalse : entryHasName q
              (RtxConfEntry.compound cfg name path) = false := by
            simp [entryHasName, hq]
          rw [hfalse]
          rw [if_neg Bool.false_ne_true]
          rw [← h q]
          have hbeq : (name == q) = false := by
            simp [hq]
          simp [mapFind, List.find?, hbeq]

theorem parseEntryLenStep (st : RtxParseState) (e : RtxConfEntry) :
    (parseConfEntry st e).configs.length = st.configs.length + 1 := by
  cases e <;> simp [parseConfEntry]

theorem parseFoldInvariant :
    ∀ (es done : List RtxConfEntry) (st : RtxParseState),
      st.configs.length = done.length →
      (∀ q, mapFind st.byPath q = lastIdxWhere (entryHasPath q) done) →
      (∀ q, mapFind st.byName q = lastIdxWhere (entryHasName q) done) →
      ((∀ q, mapFind (es.foldl parseConfEntry st).byPath q =
          lastIdxWhere (entryHasPath q) (done ++ es)) ∧
       (∀ q, mapFind (es.foldl parseConfEntry st).byName q =
          lastIdxWhere (entryHasName q) (done ++ es))) := by
  intro es
  induction es with
  | nil =>
      intro done st _ h2 h3
      constructor
      · intro q
        rw [List.append_nil]
        exact h2 q
      · intro q
        rw [List.append_nil]
        exact h3 q
  | cons e es ih =>
      intro done st h1 h2 h3
      have s1 : (parseConfEntry st e).configs.length =
          (done ++ [e]).length := by
        rw [parseEntryLenStep, List.length_append, h1]
        rfl
      have s2 := parseEntryPathStep st e done h1 h2
      have s3 := parseEntryNameStep st e done h1 h3
      have hrec := ih (done ++ [e]) (parseConfEntry st e) s1 s2 s3
      have hassoc : (done ++ [e]) ++ es = done ++ e :: es := by
        rw [List.append_assoc]
        rfl
      rw [hassoc] at hrec
      exact hrec

/-! ### Claim theorems -/

/-- Claim C1: for every sampling configuration and every sequence of
calls to the two callback setters, at most one of the two callbacks is
active at any time — setting the measurement callback clears the
measurement-data callback and vice versa. -/
theorem callback_setters_mutually_exclusive :
    (∀ (callback : Option Nat) (s : AsyncSampling),
      (producesMeasurement callback s).onMeasurementData = none) ∧
    (∀ (callback : Option Nat) (s : AsyncSampling),
      (producesMeasurementData callback s).onMeasurement = none) ∧
    (∀ (s : AsyncSampling) (calls : List SetterCall),
      atMostOneCallback s → atMostOneCallback (applySetters s calls)) := by
  refine ⟨fun _ _ => rfl, fun _ _ => rfl, ?_⟩
  intro s calls
  induction calls generalizing s with
  | nil => exact fun h => h
  | cons cl cls ih =>
      intro _
      show atMostOneCallback (applySetters (applySetter s cl) cls)
      apply ih
      cases cl with
      | measurement cb => exact Or.inr rfl
      | measurementData cb => exact Or.inl rfl

/-- Witness for C1 at a concrete configuration and setter sequence. -/
theorem callback_setters_mutually_exclusive_witness :
    atMostOneCallback defaultAsyncSampling ∧
    atMostOneCallback (applySetters defaultAsyncSampling
      [SetterCall.measurementData (some 1), SetterCall.measurement (some 2)]) :=
  ⟨Or.inl rfl,
   callback_setters_mutually_exclusive.2.2 defaultAsyncSampling
     [SetterCall.measurementData (some 1), SetterCall.measurement (some 2)]
     (Or.inl rfl)⟩

/-- Claim C2: once a context deleter has been registered via
`stores_and_passes_context`, the deleter is invoked on the owned context
exactly once over the configuration's lifetime — at destruction or upon
attachment of a replacement context — for every sequence of operations
including move assignment, provided that particular context pointer is
attached only that once and every configuration is eventually
destroyed. -/
theorem context_deleter_runs_exactly_once
    (n i c d : Nat) (ops1 ops2 : List SamplingOp)
    (h1 : ∀ op ∈ ops1, attachesCtx c op = false)
    (h2 : ∀ op ∈ ops2, attachesCtx c op = false)
    (hlive : ∃ s, (runOps (initialWorld n) ops1).1.get? i = some (some s))
    (hfin : ∀ slot ∈ (runOps (initialWorld n)
        (ops1 ++ SamplingOp.storesAndPassesContext i c (some d) :: ops2)).1,
      slot = none) :
    eventsOn c (runOps (initialWorld n)
        (ops1 ++ SamplingOp.storesAndPassesContext i c (some d) :: ops2)).2
      = 1 := by
  obtain ⟨s, hs⟩ := hlive
  have hpre := runOpsPreserves c ops1 (initialWorld n) h1
  rw [ownsCountInitial] at hpre
  have hw1owns : ownsCount (runOps (initialWorld n) ops1).1 c = 0 := by omega
  have he1 : eventsOn c (runOps (initialWorld n) ops1).2 = 0 := by omega
  have hatt := stepOpAttach c d (runOps (initialWorld n) ops1).1 i s hs hw1owns
  have hpost := runOpsPreserves c ops2
    (stepOp (runOps (initialWorld n) ops1).1
      (SamplingOp.storesAndPassesContext i c (some d))).1 h2
  rw [hatt.1] at hpost
  have hsplit := runOpsAppend (initialWorld n) ops1
    (SamplingOp.storesAndPassesContext i c (some d) :: ops2)
  have hworld : (runOps (initialWorld n)
      (ops1 ++ SamplingOp.storesAndPassesContext i c (some d) :: ops2)).1 =
      (runOps (stepOp (runOps (initialWorld n) ops1).1
        (SamplingOp.storesAndPassesContext i c (some d))).1 ops2).1 := by
    rw [hsplit]
    rfl
  have hev : (runOps (initialWorld n)
      (ops1 ++ SamplingOp.storesAndPassesContext i c (some d) :: ops2)).2 =
      (runOps (initialWorld n) ops1).2 ++
        ((stepOp (runOps (initialWorld n) ops1).1
            (SamplingOp.storesAndPassesContext i c (some d))).2 ++
          (runOps (stepOp (runOps (initialWorld n) ops1).1
            (SamplingOp.storesAndPassesContext i c (some d))).1 ops2).2) := by
    rw [hsplit]
    rfl
  have hfin2 : ownsCount (runOps (stepOp (runOps (initialWorld n) ops1).1
      (SamplingOp.storesAndPassesContext i c (some d))).1 ops2).1 c = 0 := by
    apply ownsCountAllNone
    intro slot hsl
    apply hfin
    rw [hworld]
    exact hsl
  rw [hev, eventsOnAppend, eventsOnAppend, he1, hatt.2]
  omega

/-- Witness for C2: a world of two configurations, an attachment of
context 7 with deleter 3 on slot 0, a move assignment onto slot 1, and
destruction of both slots; the deleter fires exactly once. -/
theorem context_deleter_runs_exactly_once_witness :
    (∀ op ∈ ([] : List SamplingOp), attachesCtx 7 op = false) ∧
    (∀ op ∈ [SamplingOp.moveAssign 1 0, SamplingOp.destroy 0,
      SamplingOp.destroy 1], attachesCtx 7 op = false) ∧
    (∃ s, (runOps (initialWorld 2) []).1.get? 0 = some (some s)) ∧
    (∀ slot ∈ (runOps (initialWorld 2)
        ([] ++ SamplingOp.storesAndPassesContext 0 7 (some 3) ::
          [SamplingOp.moveAssign 1 0, SamplingOp.destroy 0,
           SamplingOp.destroy 1])).1, slot = none) ∧
    eventsOn 7 (runOps (initialWorld 2)
        ([] ++ SamplingOp.storesAndPassesContext 0 7 (some 3) ::
          [SamplingOp.moveAssign 1 0, SamplingOp.destroy 0,
           SamplingOp.destroy 1])).2 = 1 :=
  ⟨by decide, by decide, ⟨defaultAsyncSampling, rfl⟩, by decide,
   context_deleter_runs_exactly_once 2 0 7 3 []
     [SamplingOp.moveAssign 1 0, SamplingOp.destroy 0, SamplingOp.destroy 1]
     (by decide) (by decide) ⟨defaultAsyncSampling, rfl⟩ (by decide)⟩

/-- Claim C3: move assignment between two distinct configurations
releases the context owned by the left-hand side (running its deleter),
adopts every field of the right-hand side, and resets the right-hand
side to the default disabled state: both callbacks inactive, null
context, and the default interval of 5000 microseconds. -/
theorem move_assign_releases_adopts_resets :
    ∀ (w : SamplingWorld) (i j : Nat) (si sj : AsyncSampling),
      i ≠ j → w.get? i = some (some si) → w.get? j = some (some sj) →
      (stepOp w (SamplingOp.moveAssign i j)).2 = releaseEvents si ∧
      ((stepOp w (SamplingOp.moveAssign i j)).1).get? i = some (some sj) ∧
      ((stepOp w (SamplingOp.moveAssign i j)).1).get? j =
        some (some defaultAsyncSampling) ∧
      defaultAsyncSampling.onMeasurement = none ∧
      defaultAsyncSampling.onMeasurementData = none ∧
      defaultAsyncSampling.context = 0 ∧
      defaultAsyncSampling.interval = default_interval ∧
      default_interval = 5000 := by
  intro w i j si sj hij hi hj
  have hstep : stepOp w (SamplingOp.moveAssign i j) =
      ((w.set i (some sj)).set j (some defaultAsyncSampling),
       releaseEvents si) := by
    simp only [stepOp]
    rw [if_neg hij, hi, hj]
  refine ⟨by rw [hstep], ?_, ?_, rfl, rfl, rfl, rfl, rfl⟩
  · rw [hstep]
    show ((w.set i (some sj)).set j
      (some defaultAsyncSampling)).get? i = some (some sj)
    rw [listGetSetNe _ _ j i (fun hh => hij hh.symm)]
    exact listGetSetSelf _ w i (listGetLtLength w i (some si) hi)
  · rw [hstep]
    show ((w.set i (some sj)).set j
      (some defaultAsyncSampling)).get? j = some (some defaultAsyncSampling)
    apply listGetSetSelf
    rw [List.length_set]
    exact listGetLtLength w j (some sj) hj

/-- Witness for C3 at a concrete pair of configurations. -/
theorem move_assign_releases_adopts_resets_witness :
    (0 : Nat) ≠ 1 ∧
    witnessWorld.get? 0 = some (some ownerSample) ∧
    witnessWorld.get? 1 = some (some otherSample) ∧
    ((stepOp witnessWorld (SamplingOp.moveAssign 0 1)).2 =
        releaseEvents ownerSample ∧
      ((stepOp witnessWorld (SamplingOp.moveAssign 0 1)).1).get? 0 =
        some (some otherSample) ∧
      ((stepOp witnessWorld (SamplingOp.moveAssign 0 1)).1).get? 1 =
        some (some defaultAsyncSampling) ∧
      defaultAsyncSampling.onMeasurement = none ∧
      defaultAsyncSampling.onMeasurementData = none ∧
      defaultAsyncSampling.context = 0 ∧
      defaultAsyncSampling.interval = default_interval ∧
      default_interval = 5000) :=
  ⟨by decide, rfl, rfl,
   move_assign_releases_adopts_resets witnessWorld 0 1 ownerSample otherSample
     (by decide) rfl rfl⟩

/-- Claim C4: `deliver` returns false and invokes no callback when
neither callback is set, and returns true invoking exactly one delivery
path — the measurement-data path if the raw callback is set, otherwise
the legacy measurement path — when a callback is set (for any
configuration respecting the at-most-one-callback invariant that the
setters maintain). -/
theorem deliver_invokes_exactly_one_path :
    ∀ s : AsyncSampling, atMostOneCallback s →
      ((s.onMeasurementData = none ∧ s.onMeasurement = none) →
        deliver s = (false, [])) ∧
      (s.onMeasurementData.isSome = true →
        deliver s = (true, [DeliveryPath.measurementData])) ∧
      (s.onMeasurementData = none → s.onMeasurement.isSome = true →
        deliver s = (true, [DeliveryPath.measurement])) := by
  intro s hs
  refine ⟨?_, ?_, ?_⟩
  · rintro ⟨h1, h2⟩
    simp [deliver, h1, h2]
  · intro h
    have hm : s.onMeasurement = none := by
      cases hs with
      | inl h' => exact h'
      | inr h' => rw [h'] at h; exact absurd h (by simp)
    simp [deliver, h, hm]
  · intro h1 h2
    simp [deliver, h1, h2]

/-- Witness for C4 at a concrete configuration with the raw callback. -/
theorem deliver_invokes_exactly_one_path_witness :
    atMostOneCallback (producesMeasurementData (some 5)
      defaultAsyncSampling) ∧
    (producesMeasurementData (some 5)
      defaultAsyncSampling).onMeasurementData.isSome = true ∧
    deliver (producesMeasurementData (some 5) defaultAsyncSampling) =
      (true, [DeliveryPath.measurementData]) :=
  ⟨Or.inl rfl, rfl,
   (deliver_invokes_exactly_one_path
     (producesMeasurementData (some 5) defaultAsyncSampling)
     (Or.inl rfl)).2.1 rfl⟩

/-- Claim C6: self-move-assignment of a sampling configuration is a
guarded no-op — the world is unchanged and no deleter runs. -/
theorem self_move_assign_is_noop :
    ∀ (w : SamplingWorld) (i : Nat),
      stepOp w (SamplingOp.moveAssign i i) = (w, []) := by
  intro w i
  simp [stepOp]

/-- Claim C7: `collector::stop` never throws and is a no-op on a
default-constructed, moved-from (disposed), or already-stopped
collector. -/
theorem collector_stop_noop_safe :
    (∀ c : Collector, ∃ c2, collectorStop c = Except.ok c2) ∧
    (collectorStop defaultCollector = Except.ok defaultCollector) ∧
    (∀ c : Collector, c.impl = none → collectorStop c = Except.ok c) ∧
    (∀ r : Collector, collectorStop (collectorMove r).2 =
      Except.ok (collectorMove r).2) ∧
    (∀ (c : Collector) (impl : CollectorImpl), c.impl = some impl →
      impl.running = false → collectorStop c = Except.ok c) := by
  refine ⟨fun c => ⟨_, rfl⟩, rfl, ?_, fun r => rfl, ?_⟩
  · intro c h
    obtain ⟨ci⟩ := c
    cases h
    rfl
  · intro c impl h hr
    obtain ⟨ci⟩ := c
    simp only at h
    subst h
    obtain ⟨run, cnt⟩ := impl
    simp only at hr
    subst hr
    rfl

/-- Witness for C7 at a concrete stopped collector. -/
theorem collector_stop_noop_safe_witness :
    (Collector.mk (some (CollectorImpl.mk false 3))).impl =
      some (CollectorImpl.mk false 3) ∧
    (CollectorImpl.mk false 3).running = false ∧
    collectorStop (Collector.mk (some (CollectorImpl.mk false 3))) =
      Except.ok (Collector.mk (some (CollectorImpl.mk false 3))) :=
  ⟨rfl, rfl,
   collector_stop_noop_safe.2.2.2.2 (Collector.mk (some
     (CollectorImpl.mk false 3))) (CollectorImpl.mk false 3) rfl rfl⟩

/-- Claim C8: passing a null callback to either callback setter is
equivalent to calling `is_disabled`: the resulting configuration is
identical to the one the disable operation produces, in particular both
callbacks are inactive. -/
theorem null_callback_setter_equals_disable :
    ∀ s : AsyncSampling,
      producesMeasurement none s = isDisabledOp s ∧
      producesMeasurementData none s = isDisabledOp s ∧
      (isDisabledOp s).onMeasurement = none ∧
      (isDisabledOp s).onMeasurementData = none :=
  fun _ => ⟨rfl, rfl, rfl, rfl⟩

/-- Claim C9: the oscilloscope sensor-definition constructor fails fast
with `std::invalid_argument` when the description is null or empty, or
when the current-measuring channel equals the voltage-measuring
channel; for every non-empty description and distinct channel pair it
raises neither error. -/
theorem rtx_sensor_definition_validation :
    ∀ (description : Option String) (channelVoltage channelCurrent : Nat),
      ((description = none ∨ description = some "") →
        mkRtxSensorDefinition description channelVoltage channelCurrent =
          Except.error (PwrError.invalidArgument error_description)) ∧
      (channelCurrent = channelVoltage →
        ∃ m, mkRtxSensorDefinition description channelVoltage channelCurrent
          = Except.error (PwrError.invalidArgument m)) ∧
      (∀ s, description = some s → s ≠ "" → channelCurrent ≠ channelVoltage →
        mkRtxSensorDefinition description channelVoltage channelCurrent =
          Except.ok ⟨s, channelVoltage, channelCurrent⟩) := by
  intro description channelVoltage channelCurrent
  refine ⟨?_, ?_, ?_⟩
  · rintro (rfl | rfl) <;> rfl
  · intro h
    cases description with
    | none => exact ⟨error_description, rfl⟩
    | some s =>
        by_cases hs : s = ""
        · subst hs
          exact ⟨error_description, rfl⟩
        · refine ⟨error_same_channel, ?_⟩
          simp [mkRtxSensorDefinition, hs, h]
  · intro s hd hs hcc
    subst hd
    simp [mkRtxSensorDefinition, hs, hcc]

/-- Witness for C9 at concrete constructor arguments. -/
theorem rtx_sensor_definition_validation_witness :
    mkRtxSensorDefinition none 1 2 =
      Except.error (PwrError.invalidArgument error_description) ∧
    (∃ m, mkRtxSensorDefinition (some "PSU") 3 3 =
      Except.error (PwrError.invalidArgument m)) ∧
    mkRtxSensorDefinition (some "PSU") 1 2 = Except.ok ⟨"PSU", 1, 2⟩ :=
  ⟨(rtx_sensor_definition_validation none 1 2).1 (Or.inl rfl),
   (rtx_sensor_definition_validation (some "PSU") 3 3).2.1 rfl,
   (rtx_sensor_definition_validation (some "PSU") 1 2).2.2 "PSU" rfl
     (by decide) (by decide)⟩

/-- Claim C5 counterexample: a file with an entry named "A" at path "P"
and an entry named "B" at path "Q", and an instrument whose path is "P"
but whose name is "B".  The code selects entry 0 by path, while the
claimed name-first rule selects entry 1. -/
theorem config_match_name_priority_counterexample :
    selectConfiguration
      [RtxConfEntry.compound 10 "A" "P", RtxConfEntry.compound 20 "B" "Q"]
      "P" "B" = (0, false) ∧
    selectConfigurationClaimed
      [RtxConfEntry.compound 10 "A" "P", RtxConfEntry.compound 20 "B" "Q"]
      "P" "B" = (1, false) ∧
    ((0, false) : Nat × Bool) ≠ (1, false) := by
  refine ⟨by decide, by decide, by decide⟩

/-- Claim C5 (amended): when applying a configuration file, the matching
entry for an instrument is selected by connection path first and by
logical name second (path has priority over name, the last registration
of a key winning), and if no entry matches either, the first
configuration in the file is applied together with a diagnostic
message. -/
theorem config_match_path_then_name :
    ∀ (entries : List RtxConfEntry) (instPath instName : String),
      selectConfiguration entries instPath instName =
        selectByLastMatch entries instPath instName := by
  intro entries instPath instName
  have hinv := parseFoldInvariant entries [] ⟨[], [], []⟩ rfl
    (fun _ => rfl) (fun _ => rfl)
  obtain ⟨hpath, hname⟩ := hinv
  simp only [List.nil_append] at hpath hname
  show (match mapFind (parseConfFile entries).byPath instPath with
    | some idx => (idx, false)
    | none =>
        match mapFind (parseConfFile entries).byName instName with
        | some idx => (idx, false)
        | none => (0, true)) = _
  rw [show (parseConfFile entries) = entries.foldl parseConfEntry ⟨[], [], []⟩
    from rfl, hpath instPath, hname instName]
  rfl

/-- Claim C10 counterexample: `asic` and `all` are distinct named
sources, yet `to_string(asic | all)` returns "all" instead of throwing,
because the bitwise or of any source with `all` is `all` itself. -/
theorem adl_to_string_or_all_counterexample :
    adlAsic ≠ adlAll ∧
    adlOr adlAsic adlAll = adlAll ∧
    adlToString (adlOr adlAsic adlAll) = Except.ok "all" := by
  refine ⟨by decide, by decide, ?_⟩
  rw [show adlOr adlAsic adlAll = adlAll by decide]
  rfl

/-- Claim C10 (amended): `to_string` returns the enumerator's name for
each of the five named values and throws `std::invalid_argument` for
every other value; a bitwise or of two distinct sources among asic,
cpu, graphics and soc is such another value and throws, whereas or-ing
any named source with `all` yields `all`, whose name is returned. -/
theorem adl_to_string_amended :
    (adlToString adlAsic = Except.ok "asic" ∧
     adlToString adlCpu = Except.ok "cpu" ∧
     adlToString adlGraphics = Except.ok "graphics" ∧
     adlToString adlSoc = Except.ok "soc" ∧
     adlToString adlAll = Except.ok "all") ∧
    (∀ v : Nat, v ≠ adlAsic → v ≠ adlCpu → v ≠ adlGraphics → v ≠ adlSoc →
      v ≠ adlAll → adlToString v = Except.error (PwrError.invalidArgument
        "The specified sensor source is unknown.")) ∧
    (∀ a b : Nat, a ∈ [adlAsic, adlCpu, adlGraphics, adlSoc] →
      b ∈ [adlAsic, adlCpu, adlGraphics, adlSoc] → a ≠ b →
      adlToString (adlOr a b) = Except.error (PwrError.invalidArgument
        "The specified sensor source is unknown.")) ∧
    (∀ a : Nat, a ∈ [adlAsic, adlCpu, adlGraphics, adlSoc, adlAll] →
      adlOr a adlAll = adlAll) := by
  refine ⟨⟨rfl, rfl, rfl, rfl, rfl⟩, ?_, ?_, ?_⟩
  · intro v h1 h2 h3 h4 h5
    simp [adlToString, h1, h2, h3, h4, h5]
  · intro a b ha hb hab
    fin_cases ha <;> fin_cases hb <;>
      first
      | exact absurd rfl hab
      | rfl
  · intro a ha
    fin_cases ha <;> decide

/-- Witness for the amended C10 at a concrete pair of proper sources. -/
theorem adl_to_string_amended_witness :
    adlAsic ∈ [adlAsic, adlCpu, adlGraphics, adlSoc] ∧
    adlCpu ∈ [adlAsic, adlCpu, adlGraphics, adlSoc] ∧
    adlAsic ≠ adlCpu ∧
    adlToString (adlOr adlAsic adlCpu) = Except.error
      (PwrError.invalidArgument "The specified sensor source is unknown.") :=
  ⟨by decide, by decide, by decide,
   adl_to_string_amended.2.2.1 adlAsic adlCpu (by decide) (by decide)
     (by decide)⟩
